import Mathlib

/-!
Shallow embedding of the Rigol1000z waveform capture, reconstruction and
persistence pipeline (`src/Rigol1000z`).

Modelling conventions:
* Python floats (`capture_period`, amplitudes, `np.linspace` samples) are
  idealized as exact rationals `ℚ`; `numpy.float` rounding is not modelled.
* `numpy` byte arrays (`wf_data`, raw block responses, BLOBs) are `List ℕ`.
* Python `int` values that can be negative (`vertical_offset`, database ids,
  the `-1` "not persisted" sentinel) are `ℤ`.
* `datetime` values are opaque `ℤ` ticks (only passed through, never computed).
* The sqlite database (`sql_integration/sql_commands.py`) is explicit state:
  a `DB` value holding the `capture` and `waveform` tables and the
  AUTOINCREMENT counters; each write returns the new state and the
  `lastrowid` of the inserted row.
* A Python statement that raises is modelled with `Except`/`Option`.
-/

/-! ## Decimal text (`vertical_scale` strings, `decimal.Decimal`) -/

/-- Numeric value of a decimal digit character. -/
def digitVal (c : Char) : ℕ := c.toNat - '0'.toNat

/-- Value of a list of decimal digit characters, most significant first. -/
def digitsVal (l : List Char) : ℕ := l.foldl (fun a c => 10 * a + digitVal c) 0

/-- Exact rational value of a decimal string such as `"0.01"` or `"-12.5"`:
the value `float(Decimal(s))` denotes in the source, before binary rounding
(which this embedding idealizes away).  Supported shape: optional sign,
integer digits, optional `.` and fraction digits. -/
def decimalToRat (s : String) : ℚ :=
  let l := s.toList
  let sign : ℚ := if l.head? = some '-' then -1 else 1
  let l := if l.head? = some '-' ∨ l.head? = some '+' then l.drop 1 else l
  let intPart := l.takeWhile (fun c => c ≠ '.')
  let fracPart := (l.dropWhile (fun c => c ≠ '.')).drop 1
  sign * ((digitsVal intPart : ℚ) + (digitsVal fracPart : ℚ) / 10 ^ fracPart.length)

/-! ## `WaveformChannel` (waveform_objs.py lines 37-99) -/

/-- `WaveformChannel.__init__`: `channel_name`, `wf_data` (unsigned byte
samples), `vertical_offset`, the vertical scale kept as its exact decimal
text in `_vertical_scale`, the `-1` "not written to db" sentinel in
`_database_id`, and `description`. -/
structure WaveformChannel where
  channel_name : String
  wf_data : List ℕ
  vertical_offset : ℤ
  vert_scale_text : String
  database_id : ℤ
  description : String
deriving Repr, DecidableEq

/-- The `WaveformChannel` constructor: `_database_id` starts at `-1`. -/
def WaveformChannel.make (channel_name : String) (data : List ℕ)
    (vertical_offset : ℤ) (vertical_scale : String) (description : String) :
    WaveformChannel :=
  ⟨channel_name, data, vertical_offset, vertical_scale, -1, description⟩

/-- The `vertical_scale` property: `Decimal(self._vertical_scale)`, as an
exact rational. -/
def WaveformChannel.vertical_scale (w : WaveformChannel) : ℚ :=
  decimalToRat w.vert_scale_text

/-- `WaveformChannel.to_float_amplitude_array`:
`(self.wf_data + self.vertical_offset) * float(self.vertical_scale)`,
element-wise over the sample array. -/
def WaveformChannel.to_float_amplitude_array (w : WaveformChannel) : List ℚ :=
  w.wf_data.map (fun (s : ℕ) => (((s : ℤ) + w.vertical_offset : ℤ) : ℚ) * w.vertical_scale)

/-- `len(waveform_channel)` = `self.wf_data.size`. -/
def WaveformChannel.size (w : WaveformChannel) : ℕ := w.wf_data.length

/-! ## Frequency domain (waveform_objs.py lines 69-84) -/

/-- Bin `k` of `numpy.fft.rfft` on the real input `x` (exact complex DFT):
`∑ n, x[n] * exp(-2πi·k·n/N)`. -/
noncomputable def rfftBin (x : List ℝ) (k : ℕ) : ℂ :=
  ∑ n ∈ Finset.range x.length,
    (x.getD n 0 : ℂ) * Complex.exp (-(2 * Real.pi * Complex.I * k * n) / x.length)

/-- `WaveformChannel.to_frequency_domain(period, windowing_function)`:
amplitude array, minus its mean (`numpy.average`), times
`windowing_function(N)` element-wise, then the magnitudes
`sqrt(re² + im²)` of all `rfft` output bins (one-sided transform:
`input_length / 2 + 1` bins).  The `period` parameter is accepted but,
as in the source, unused by the computation; the source's `print` of the
dc offset is a side effect outside the model. -/
noncomputable def WaveformChannel.to_frequency_domain (w : WaveformChannel)
    (_period : ℚ) (windowing_function : ℕ → List ℝ) : List ℝ :=
  let float_array : List ℝ := w.to_float_amplitude_array.map (fun (q : ℚ) => (q : ℝ))
  let dc_offset : ℝ := float_array.sum / float_array.length
  let windowed : List ℝ :=
    List.zipWith (fun a b => a * b) (windowing_function w.wf_data.length)
      (float_array.map (fun v => v - dc_offset))
  (List.range (windowed.length / 2 + 1)).map
    (fun k => Real.sqrt ((rfftBin windowed k).re ^ 2 + (rfftBin windowed k).im ^ 2))

/-! ## `Capture` (waveform_objs.py lines 214-254) -/

/-- `Capture.__init__(period, description)`: empty insertion-ordered waveform
map, `_database_id = -1`, `project_id = -1`; `_capture_time = datetime.now()`
is modelled by an explicit `now` argument. -/
structure Capture where
  period : ℚ
  waveforms : List (String × WaveformChannel)
  database_id : ℤ
  capture_time : ℤ
  description : String
  project_id : ℤ
deriving Repr, DecidableEq

/-- The `Capture` constructor. -/
def Capture.make (period : ℚ) (description : String) (now : ℤ) : Capture :=
  ⟨period, [], -1, now, description, -1⟩

/-- Python `dict` assignment `d[k] = v`: replace the value in place when the
key is present, append otherwise (insertion order preserved). -/
def assocUpdate (l : List (String × WaveformChannel)) (k : String)
    (v : WaveformChannel) : List (String × WaveformChannel) :=
  match l with
  | [] => [(k, v)]
  | (k', v') :: rest =>
    if k' = k then (k, v) :: rest else (k', v') :: assocUpdate rest k v

/-- `Capture.add_waveform(channel_name, wf)`:
`self.waveforms[channel_name] = wf`. -/
def Capture.add_waveform (c : Capture) (channel_name : String)
    (wf : WaveformChannel) : Capture :=
  { c with waveforms := assocUpdate c.waveforms channel_name wf }

/-- `numpy.linspace(start, stop, num)` with `endpoint=True`, exact: for
`num ≥ 2` the samples are `start + (stop-start)*i/(num-1)` (numpy's forced
`y[-1] = stop` is already exact here); `num = 1` yields `[start]` and
`num = 0` yields `[]` (numpy's `div ≤ 0` branch).  The source's `dtype='f'`
float32 rounding is idealized away. -/
def linspace (start stop : ℚ) (num : ℕ) : List ℚ :=
  if num ≤ 1 then List.replicate num start
  else (List.range num).map
    (fun (i : ℕ) => start + (stop - start) * (i : ℚ) / ((num : ℚ) - 1))

/-- `Capture.to_timebase(data_points)`:
`np.linspace(start=0.0, stop=self.period, num=data_points, dtype='f')`. -/
def Capture.to_timebase (c : Capture) (data_points : ℕ) : List ℚ :=
  linspace 0 c.period data_points

/-! ## Database (`sql_integration/sql_commands.py`) -/

/-- One row of the `capture` table. -/
structure CaptureRow where
  id : ℤ
  description : String
  capture_period : ℚ
  capture_datetime : ℤ
  fk_project : ℤ
deriving Repr, DecidableEq

/-- One row of the `waveform` table. -/
structure WaveformRow where
  id : ℤ
  fk_capture : ℤ
  channel_name : String
  vertical_offset : ℤ
  vertical_scale : String
  description : String
  wf : List ℕ
deriving Repr, DecidableEq

/-- The sqlite database state: the two tables (in rowid order) and their
`AUTOINCREMENT` counters (sqlite assigns 1, 2, ...). The `project` table is
only ever written with its two reserved rows and never read by this core, so
it is not modelled. -/
structure DB where
  captures : List CaptureRow
  waveforms : List WaveformRow
  next_capture_id : ℤ
  next_waveform_id : ℤ
deriving Repr, DecidableEq

/-- A freshly initialized store. -/
def DB.empty : DB := ⟨[], [], 1, 1⟩

/-- `DBInterface.write_capture_to_db(capture_period, capture_datetime,
capture_description, part_of_project)`: insert a row, return `lastrowid`. -/
def DB.write_capture_to_db (db : DB) (capture_period : ℚ)
    (capture_datetime : ℤ) (capture_description : String)
    (part_of_project : ℤ) : ℤ × DB :=
  (db.next_capture_id,
   { db with
      captures := db.captures ++
        [⟨db.next_capture_id, capture_description, capture_period,
          capture_datetime, part_of_project⟩]
      next_capture_id := db.next_capture_id + 1 })

/-- `DBInterface.write_waveform_to_db(measurement_fk, wf, channel_name,
vertical_offset, vertical_scale, description)`: insert a row (the
`vertical_scale` goes into a `TEXT` column verbatim, the samples into a
`BLOB`), return `lastrowid`. -/
def DB.write_waveform_to_db (db : DB) (measurement_fk : ℤ) (wf : List ℕ)
    (channel_name : String) (vertical_offset : ℤ) (vertical_scale : String)
    (description : String) : ℤ × DB :=
  (db.next_waveform_id,
   { db with
      waveforms := db.waveforms ++
        [⟨db.next_waveform_id, measurement_fk, channel_name, vertical_offset,
          vertical_scale, description, wf⟩]
      next_waveform_id := db.next_waveform_id + 1 })

/-- `DBInterface.get_capture_from_id`: `select capture_period, description,
capture_datetime from capture where id=?` with `fetchone()` (`none` models
the `None` returned when the id is absent). -/
def DB.get_capture_from_id (db : DB) (capture_id : ℤ) :
    Option (ℚ × String × ℤ) :=
  (db.captures.find? (fun r => r.id == capture_id)).map
    (fun r => (r.capture_period, r.description, r.capture_datetime))

/-- `DBInterface.get_waveforms_from_capture_id`: the join
`from capture c, waveform w where w.fk_capture=c.id and c.id=?`, returning
`(w.id, w.channel_name, w.vertical_offset, w.vertical_scale, w.description,
w.wf)` rows in the waveform table's natural (rowid) order; empty when no
capture row has the id (ids are unique: they come from `AUTOINCREMENT`). -/
def DB.get_waveforms_from_capture_id (db : DB) (capture_id : ℤ) :
    List (ℤ × String × ℤ × String × String × List ℕ) :=
  if (db.captures.find? (fun r => r.id == capture_id)).isSome then
    (db.waveforms.filter (fun w => w.fk_capture == capture_id)).map
      (fun w => (w.id, w.channel_name, w.vertical_offset, w.vertical_scale,
                 w.description, w.wf))
  else []

/-- `WaveformChannel.write_to_db(capture_key, description)`: store the
waveform (samples as `tobytes()`, scale text verbatim) and record the
assigned id in `self._database_id`; returns the id, the updated channel and
the updated store. -/
def WaveformChannel.write_to_db (w : WaveformChannel) (capture_key : ℤ)
    (description : String) (db : DB) : ℤ × WaveformChannel × DB :=
  let r := db.write_waveform_to_db capture_key w.wf_data w.channel_name
    w.vertical_offset w.vert_scale_text description
  (r.1, { w with database_id := r.1 }, r.2)

/-- A raised Python exception. -/
inductive PyErr where
  | typeErr
deriving Repr, DecidableEq

deriving instance DecidableEq for Except

/-- `Capture.write_to_db` as written in waveform_objs.py lines 238-254: its
first statement calls `db.write_capture_to_db(capture_period=...,
capture_datetime=..., capture_description=..., project_id=self.project_id)`,
but `DBInterface.write_capture_to_db` has no parameter named `project_id`
(the parameter is `part_of_project`, sql_commands.py line 97), so the call
raises `TypeError: write_capture_to_db() got an unexpected keyword argument`
before any row is inserted; the rest of the method body is unreachable. -/
def Capture.write_to_db (_c : Capture) (_db : DB) :
    Except PyErr (ℤ × Capture × DB) :=
  .error .typeErr

/-- The body of `Capture.write_to_db` with the sole repair of binding the
`project_id` keyword to the `part_of_project` parameter — the binding the
repository's own `examples/db_example.py` (which calls
`capture.write_to_db()` and then rehydrates by the returned id) depends on:
insert the capture row, then write every contained waveform in map order
with `description=""`, and return the capture id. -/
def Capture.write_to_db_fixed (c : Capture) (db : DB) : ℤ × Capture × DB :=
  let r0 := db.write_capture_to_db c.period c.capture_time c.description
    c.project_id
  let cid := r0.1
  let step := c.waveforms.foldl
    (fun (acc : List (String × WaveformChannel) × DB) kv =>
      let r := kv.2.write_to_db cid "" acc.2
      (acc.1 ++ [(kv.1, r.2.1)], r.2.2))
    ([], r0.2)
  (cid, { c with database_id := cid, waveforms := step.1 }, step.2)

/-- `capture_from_database_id(capture_id)` (waveform_objs.py lines 368-395):
read the capture row (`none` models the `TypeError` from unpacking a `None`
response), build a fresh `Capture` (so `_database_id = -1` and
`project_id = -1`), overwrite its `description` and `_capture_time` from the
row, and `add_waveform` a freshly constructed `WaveformChannel` (so its
`_database_id = -1`) for every waveform row of the capture. -/
def capture_from_database_id (db : DB) (capture_id : ℤ) : Option Capture :=
  match db.get_capture_from_id capture_id with
  | none => none
  | some (capture_period, capture_description, capture_datetime) =>
    let base : Capture :=
      { Capture.make capture_period "" 0 with
          description := capture_description
          capture_time := capture_datetime }
    some ((db.get_waveforms_from_capture_id capture_id).foldl
      (fun cap wrow =>
        cap.add_waveform wrow.2.1
          (WaveformChannel.make wrow.2.1 wrow.2.2.2.2.2 wrow.2.2.1
            wrow.2.2.2.1 wrow.2.2.2.2.1))
      base)

/-! ## Block fetch loop (`Rigol1000z.get_capture`, rigol1000z.py 243-334) -/

/-- The sequence of `(read_start_point, read_end_point)` windows the loop in
`get_capture` requests for a channel with `info.points` points:
`num_blocks = points // 250000` full blocks `(1 + i*250000, 250000*(i+1))`,
then, only when `last_block_pts = points % 250000` is nonzero, one final
block `(1 + num_blocks*250000, num_blocks*250000 + last_block_pts)`
(otherwise the loop `break`s without a trailing request). -/
def requestedBlocks (points : ℕ) : List (ℕ × ℕ) :=
  let num_blocks := points / 250000
  let last_block_pts := points % 250000
  (List.range num_blocks).map (fun i => (1 + i * 250000, 250000 * (i + 1)))
    ++ (if last_block_pts = 0 then []
        else [(1 + num_blocks * 250000, num_blocks * 250000 + last_block_pts)])

/-- `data[11:-1]`: drop the 11-byte header and the single trailing
terminator byte of one raw block response. -/
def stripBlock (data : List ℕ) : List ℕ := (data.drop 11).dropLast

/-- The per-channel buffer `get_capture` assembles: each requested block's
raw response (`reader start end`) stripped with `data[11:-1]` and appended
to `data_blocks`, then concatenated in block order (`np.concatenate`; for a
single block the source returns `data_blocks[0]`, which coincides with the
concatenation). -/
def fetchBuffer (reader : ℕ → ℕ → List ℕ) (points : ℕ) : List ℕ :=
  ((requestedBlocks points).map (fun se => stripBlock (reader se.1 se.2))).flatten

/-- Modelled from the spec: the preamble decoder (`PreambleContext` lives in
`Rigol1000z/commands.py`, which is not under `src/`; only its callers are).
Fields per §3 "Preamble" — `points`, the time scaling `x_increment`, and the
vertical addressing `y_origin`/`y_reference` consumed as integers by
`y_offset = -info.y_origin - info.y_reference`.  Per the §3 invariant that
`vertical_scale` "is retained as exact decimal text end-to-end (acquisition
→ persistence → reconstruction)", the device-reported vertical scale
`y_increment` is carried as its exact decimal text. -/
structure PreambleContext where
  points : ℕ
  x_increment : ℚ
  y_origin : ℤ
  y_reference : ℤ
  y_increment : String

/-- Modelled from the spec: the device-link collaborator of §6 (`visa`
resource plus the `Waveform`/`Channel` command menus of the absent
`commands.py`): the channel numbers of `channel_list`, each channel's
enabled state, the per-channel preamble reported after the source switch,
the initial preamble used for the period, the raw block reader
(`channel → start → end → response bytes` of `:wav:data?`), and the
`datetime.now()` tick. -/
structure ScopeState where
  channels : List ℕ
  enabled : ℕ → Bool
  preamble : ℕ → PreambleContext
  initial_preamble : PreambleContext
  reader : ℕ → ℕ → ℕ → List ℕ
  now : ℤ

/-- `Rigol1000z.get_capture` (data path): period
`float(info_initial.points * info_initial.x_increment)`; for every enabled
channel `c`, fetch its blocks, strip and concatenate them, and
`add_waveform(str(c), WaveformChannel(str(c), data, -y_origin - y_reference,
info.y_increment))` (description defaulted to `""`). -/
def get_capture (s : ScopeState) : Capture :=
  let total_wf_period : ℚ :=
    (s.initial_preamble.points : ℚ) * s.initial_preamble.x_increment
  (s.channels.filter s.enabled).foldl
    (fun cap c =>
      let info := s.preamble c
      let data := fetchBuffer (fun a b => s.reader c a b) info.points
      cap.add_waveform (toString c)
        (WaveformChannel.make (toString c) data
          (-info.y_origin - info.y_reference) info.y_increment ""))
    (Capture.make total_wf_period "" s.now)

/-! ## Theorems -/

/-- The `q` full blocks cover `[1, q*250000]` contiguously in order. -/
theorem flatten_full_blocks (q : ℕ) :
    ((((List.range q).map (fun i => (1 + i * 250000, 250000 * (i + 1))))).map
        (fun se => List.range' se.1 (se.2 + 1 - se.1))).flatten
      = List.range' 1 (q * 250000) := by
  induction q with
  | zero => simp
  | succ q ih =>
    rw [List.range_succ, List.map_append, List.map_append, List.flatten_append, ih]
    simp only [List.map_cons, List.map_nil, List.flatten_cons, List.flatten_nil,
      List.append_nil]
    have h1 : 250000 * (q + 1) + 1 - (1 + q * 250000) = 250000 := by omega
    rw [h1, List.range'_append_1 1 (q * 250000) 250000]
    congr 1
    omega

/-- C2: for every `total_points` in `[1, 1_000_000]` (with the fixed
`max_block_size = 250000`), the `(start, end)` windows requested by the
block fetch loop partition the inclusive 1-based range `[1, total_points]`
exactly once, contiguously, with no gaps and no overlaps (their point
ranges concatenate, in request order, to exactly `[1, ..., total_points]`);
the number of blocks is `⌈total_points / 250000⌉`; and when `total_points`
is exactly divisible by `250000` the count is exactly
`total_points / 250000` (no trailing short block). -/
theorem c2_block_partition (points : ℕ) (h1 : 1 ≤ points) (h2 : points ≤ 1000000) :
    ((requestedBlocks points).map
        (fun se => List.range' se.1 (se.2 + 1 - se.1))).flatten
      = List.range' 1 points
    ∧ (requestedBlocks points).length = (points + 250000 - 1) / 250000
    ∧ (points % 250000 = 0 → (requestedBlocks points).length = points / 250000) := by
  refine ⟨?_, ?_, ?_⟩
  · simp only [requestedBlocks]
    by_cases hr : points % 250000 = 0
    · rw [if_pos hr, List.append_nil, flatten_full_blocks]
      congr 1
      omega
    · rw [if_neg hr, List.map_append, List.flatten_append, flatten_full_blocks]
      simp only [List.map_cons, List.map_nil, List.flatten_cons, List.flatten_nil,
        List.append_nil]
      have h3 : points / 250000 * 250000 + points % 250000 + 1
          - (1 + points / 250000 * 250000) = points % 250000 := by omega
      rw [h3, List.range'_append_1 1 (points / 250000 * 250000) (points % 250000)]
      congr 1
      omega
  · simp only [requestedBlocks]
    by_cases hr : points % 250000 = 0
    · rw [if_pos hr]
      simp only [List.append_nil, List.length_map, List.length_range]
      omega
    · rw [if_neg hr]
      simp only [List.length_append, List.length_map, List.length_range,
        List.length_cons, List.length_nil]
      omega
  · intro hr
    simp only [requestedBlocks]
    rw [if_pos hr]
    simp only [List.append_nil, List.length_map, List.length_range]

/-- Witness for C2 at `total_points = 600001` (two full blocks and one
trailing short block). -/
theorem c2_block_partition_witness :
    1 ≤ 600001 ∧ 600001 ≤ 1000000
    ∧ (((requestedBlocks 600001).map
          (fun se => List.range' se.1 (se.2 + 1 - se.1))).flatten
        = List.range' 1 600001
      ∧ (requestedBlocks 600001).length = (600001 + 250000 - 1) / 250000
      ∧ (600001 % 250000 = 0 → (requestedBlocks 600001).length = 600001 / 250000)) :=
  ⟨by decide, by decide, c2_block_partition 600001 (by decide) (by decide)⟩

/-- `data[11:-1]` keeps exactly the bytes at indices `11, ..., length - 2`:
it drops exactly the 11-byte leading header and exactly the single trailing
byte. -/
theorem stripBlock_eq_drop_take (data : List ℕ) :
    stripBlock data = (data.drop 11).take (data.length - 12) := by
  rw [stripBlock, List.dropLast_eq_take, List.length_drop]
  congr 1

/-- C6: for every raw block response the fetcher strips exactly 11 leading
header bytes and exactly 1 trailing terminator byte (keeping indices
`11, ..., length - 2`), and the assembled per-channel buffer is the
concatenation of the stripped block payloads in the order the blocks were
requested. -/
theorem c6_strip_and_concatenate (reader : ℕ → ℕ → List ℕ) (points : ℕ) :
    fetchBuffer reader points
      = ((requestedBlocks points).map
          (fun se => ((reader se.1 se.2).drop 11).take
            ((reader se.1 se.2).length - 12))).flatten := by
  simp only [fetchBuffer, stripBlock_eq_drop_take]

/-- A reader whose single-block response carries only 3 payload bytes
(15 raw bytes: 11 header + 3 payload + 1 terminator) for a 5-point
request. -/
def shortReader (_start _stop : ℕ) : List ℕ := List.range 15

/-- C3 counterexample: at `total_points = 5` the single requested block is
`(1, 5)`, `shortReader`'s stripped payload has length `3 ≠ 5`, yet the
fetch raises nothing and returns the 3-byte buffer: no
`TransferIntegrityError` exists in the code, the partial data is returned,
not discarded. -/
theorem c3_no_integrity_error_counterexample :
    requestedBlocks 5 = [(1, 5)]
    ∧ (stripBlock (shortReader 1 5)).length ≠ 5
    ∧ fetchBuffer shortReader 5 = [11, 12, 13]
    ∧ (fetchBuffer shortReader 5).length ≠ 5 := by
  decide

/-- C3 amended: the fetch performs no length validation at all: whatever
the stripped payload lengths are, the assembled buffer is returned and its
length is the sum of the stripped payload lengths (a mismatched block is
incorporated verbatim — neither an error, nor truncation, nor padding to
the requested size). -/
theorem c3_buffer_length_unchecked (reader : ℕ → ℕ → List ℕ) (points : ℕ)
    (_points_pos : 1 ≤ points) :
    (fetchBuffer reader points).length
      = ((requestedBlocks points).map
          (fun se => (stripBlock (reader se.1 se.2)).length)).sum := by
  simp only [fetchBuffer, List.length_flatten, List.map_map, Function.comp_def]

/-- Witness for the amended C3 at the mismatching `shortReader`. -/
theorem c3_buffer_length_unchecked_witness :
    1 ≤ 5
    ∧ (fetchBuffer shortReader 5).length
        = ((requestedBlocks 5).map
            (fun se => (stripBlock (shortReader se.1 se.2)).length)).sum :=
  ⟨by decide, c3_buffer_length_unchecked shortReader 5 (by decide)⟩

/-- The worked amplitude example of the spec: `raw_samples = [0, 128, 255]`,
`vertical_offset = -128`, `vertical_scale = "0.01"`. -/
def exampleChannel : WaveformChannel :=
  WaveformChannel.make "1" [0, 128, 255] (-128) "0.01" ""

/-- The decimal text `"0.01"` denotes exactly `1/100`. -/
theorem decimalToRat_001 : decimalToRat "0.01" = 1 / 100 := by
  simp +decide [decimalToRat, digitsVal, digitVal]

/-- C4: the amplitude sequence has the same length as `raw_samples` and its
`i`-th element is `(raw_samples[i] + vertical_offset) * float(vertical_scale)`
(exact-rational idealization of the float arithmetic); on
`raw_samples = [0, 128, 255]`, `vertical_offset = -128`,
`vertical_scale = "0.01"` the amplitudes are exactly `[-1.28, 0, 1.27]`. -/
theorem c4_amplitude_formula (w : WaveformChannel) :
    w.to_float_amplitude_array.length = w.wf_data.length
    ∧ (∀ i, i < w.wf_data.length →
        w.to_float_amplitude_array.getD i 0
          = ((w.wf_data.getD i 0 : ℤ) + w.vertical_offset : ℚ) * w.vertical_scale)
    ∧ exampleChannel.to_float_amplitude_array = [-1.28, 0, 1.27] := by
  refine ⟨by simp [WaveformChannel.to_float_amplitude_array], ?_, ?_⟩
  · intro i hi
    simp only [WaveformChannel.to_float_amplitude_array, List.getD_eq_getElem?_getD,
      List.getElem?_map, List.getElem?_eq_getElem hi, Option.map_some', Option.getD_some]
    push_cast
    ring
  · simp only [exampleChannel, WaveformChannel.make,
      WaveformChannel.to_float_amplitude_array, WaveformChannel.vertical_scale,
      List.map_cons, List.map_nil, decimalToRat_001]
    norm_num

/-- Witness for C4 at the worked example, index 2. -/
theorem c4_amplitude_formula_witness :
    2 < exampleChannel.wf_data.length
    ∧ exampleChannel.to_float_amplitude_array.getD 2 0
        = ((exampleChannel.wf_data.getD 2 0 : ℤ) + exampleChannel.vertical_offset : ℚ)
            * exampleChannel.vertical_scale :=
  ⟨by decide, (c4_amplitude_formula exampleChannel).2.1 2 (by decide)⟩

/-- C8 counterexample: `to_timebase(1)` on a capture of period `1` is the
single sample `[0]` (numpy's `linspace` with `num = 1` returns `[start]`),
so its last element is `0`, not the period — the claim's "for every n"
fails at `n = 1`. -/
theorem c8_single_point_counterexample :
    (Capture.make 1 "" 0).to_timebase 1 = [0]
    ∧ ((Capture.make 1 "" 0).to_timebase 1).getLast? ≠ some (Capture.make 1 "" 0).period := by
  constructor
  · simp [Capture.to_timebase, Capture.make, linspace]
  · simp only [Capture.to_timebase, Capture.make, linspace]
    norm_num

/-- C8 amended: for every Capture and every `n ≥ 2`, `to_timebase(n)`
returns `n` evenly spaced samples over `[0, period]`: first element
exactly `0`, last element exactly `period`, consecutive differences all
`period / (n - 1)`, and (for a nonnegative period) every sample inside
`[0, period]`; for `n = 1` the result is `[0]` and for `n = 0` it is `[]`.
Determinism is immediate: the result is a pure function of
`(period, n)`. -/
theorem c8_timebase_evenly_spaced (c : Capture) (n : ℕ) (hn : 2 ≤ n) :
    (c.to_timebase n).length = n
    ∧ (c.to_timebase n).head? = some 0
    ∧ (c.to_timebase n).getLast? = some c.period
    ∧ (∀ i, i + 1 < n →
        (c.to_timebase n).getD (i + 1) 0 - (c.to_timebase n).getD i 0
          = c.period / (n - 1))
    ∧ (0 ≤ c.period → ∀ x ∈ c.to_timebase n, 0 ≤ x ∧ x ≤ c.period) := by
  have hif : ¬ n ≤ 1 := by omega
  have hd0 : (0 : ℚ) < (n : ℚ) - 1 := by
    have : (2 : ℚ) ≤ (n : ℚ) := by exact_mod_cast hn
    linarith
  have hdne : ((n : ℚ) - 1) ≠ 0 := ne_of_gt hd0
  simp only [Capture.to_timebase, linspace, if_neg hif]
  refine ⟨by simp, ?_, ?_, ?_, ?_⟩
  · rw [List.head?_eq_getElem?, List.getElem?_map]
    have h0 : (List.range n)[0]? = some 0 := by
      rw [List.getElem?_eq_getElem (by simpa using by omega : 0 < (List.range n).length)]
      simp
    rw [h0]
    simp
  · rw [List.getLast?_map]
    have hsplit : List.range n = List.range (n - 1) ++ [n - 1] := by
      conv_lhs => rw [show n = (n - 1) + 1 by omega]
      exact List.range_succ (n - 1)
    rw [hsplit, List.getLast?_concat]
    simp only [Option.map_some']
    congr 1
    have hcast : ((n - 1 : ℕ) : ℚ) = (n : ℚ) - 1 := by
      have : 1 ≤ n := by omega
      push_cast [this]
      ring
    rw [hcast]
    field_simp
  · intro i hi
    have hi1 : i < n := by omega
    have g1 : ((List.range n).map
        (fun (j : ℕ) => 0 + (c.period - 0) * (j : ℚ) / ((n : ℚ) - 1))).getD (i + 1) 0
          = 0 + (c.period - 0) * ((i + 1 : ℕ) : ℚ) / ((n : ℚ) - 1) := by
      rw [List.getD_eq_getElem?_getD, List.getElem?_map,
        List.getElem?_eq_getElem (by simpa using hi)]
      simp
    have g2 : ((List.range n).map
        (fun (j : ℕ) => 0 + (c.period - 0) * (j : ℚ) / ((n : ℚ) - 1))).getD i 0
          = 0 + (c.period - 0) * ((i : ℕ) : ℚ) / ((n : ℚ) - 1) := by
      rw [List.getD_eq_getElem?_getD, List.getElem?_map,
        List.getElem?_eq_getElem (by simpa using hi1)]
      simp
    rw [g1, g2]
    push_cast
    field_simp
    ring
  · intro hp x hx
    rw [List.mem_map] at hx
    obtain ⟨i, hmem, rfl⟩ := hx
    rw [List.mem_range] at hmem
    have hic : (i : ℚ) ≤ (n : ℚ) - 1 := by
      have : (i : ℚ) + 1 ≤ (n : ℚ) := by exact_mod_cast hmem
      linarith
    constructor
    · have : (0 : ℚ) ≤ c.period * (i : ℚ) := mul_nonneg hp (by positivity)
      simp only [zero_add, sub_zero]
      exact div_nonneg this (le_of_lt hd0)
    · simp only [zero_add, sub_zero]
      rw [div_le_iff₀ hd0]
      calc c.period * (i : ℚ) ≤ c.period * ((n : ℚ) - 1) :=
            mul_le_mul_of_nonneg_left hic hp
        _ = c.period * ((n : ℚ) - 1) := rfl

/-- Witness for the amended C8 at period `2`, `n = 5`. -/
theorem c8_timebase_evenly_spaced_witness :
    2 ≤ 5
    ∧ (((Capture.make 2 "" 0).to_timebase 5).length = 5
      ∧ ((Capture.make 2 "" 0).to_timebase 5).head? = some 0
      ∧ ((Capture.make 2 "" 0).to_timebase 5).getLast? = some (Capture.make 2 "" 0).period
      ∧ (∀ i, i + 1 < 5 →
          ((Capture.make 2 "" 0).to_timebase 5).getD (i + 1) 0
            - ((Capture.make 2 "" 0).to_timebase 5).getD i 0
            = (Capture.make 2 "" 0).period / (5 - 1))
      ∧ (0 ≤ (Capture.make 2 "" 0).period →
          ∀ x ∈ (Capture.make 2 "" 0).to_timebase 5,
            0 ≤ x ∧ x ≤ (Capture.make 2 "" 0).period)) :=
  ⟨by decide, c8_timebase_evenly_spaced (Capture.make 2 "" 0) 5 (by decide)⟩

/-- Every entry of `assocUpdate l k v` is the inserted pair or an entry of
`l`. -/
theorem mem_assocUpdate {l : List (String × WaveformChannel)} {k : String}
    {v : WaveformChannel} {e : String × WaveformChannel}
    (h : e ∈ assocUpdate l k v) : e = (k, v) ∨ e ∈ l := by
  induction l with
  | nil => simpa [assocUpdate] using h
  | cons hd tl ih =>
    obtain ⟨k', v'⟩ := hd
    simp only [assocUpdate] at h
    by_cases hk : k' = k
    · rw [if_pos hk] at h
      rcases List.mem_cons.mp h with h | h
      · exact Or.inl h
      · exact Or.inr (List.mem_cons_of_mem _ h)
    · rw [if_neg hk] at h
      rcases List.mem_cons.mp h with h | h
      · exact Or.inr (h ▸ List.mem_cons_self _ _)
      · rcases ih h with h | h
        · exact Or.inl h
        · exact Or.inr (List.mem_cons_of_mem _ h)

/-- Entries of a capture built by repeated `add_waveform` calls come either
from the start capture or from one of the added `(name, channel)` pairs. -/
theorem mem_foldl_add_waveform {α : Type} (nm : α → String)
    (ch : α → WaveformChannel) :
    ∀ (xs : List α) (cap : Capture) (e : String × WaveformChannel),
      e ∈ (xs.foldl (fun c x => c.add_waveform (nm x) (ch x)) cap).waveforms →
      e ∈ cap.waveforms ∨ ∃ x ∈ xs, e = (nm x, ch x) := by
  intro xs
  induction xs with
  | nil => intro cap e h; exact Or.inl h
  | cons hd tl ih =>
    intro cap e h
    simp only [List.foldl_cons] at h
    rcases ih _ e h with h1 | h1
    · rcases mem_assocUpdate h1 with h2 | h2
      · exact Or.inr ⟨hd, List.mem_cons_self _ _, h2⟩
      · exact Or.inl h2
    · obtain ⟨x, hx, he⟩ := h1
      exact Or.inr ⟨x, List.mem_cons_of_mem _ hx, he⟩

/-- `add_waveform` folds leave every non-`waveforms` field unchanged. -/
theorem foldl_add_waveform_fields {α : Type} (nm : α → String)
    (ch : α → WaveformChannel) :
    ∀ (xs : List α) (cap : Capture),
      (xs.foldl (fun c x => c.add_waveform (nm x) (ch x)) cap).database_id
          = cap.database_id
      ∧ (xs.foldl (fun c x => c.add_waveform (nm x) (ch x)) cap).project_id
          = cap.project_id := by
  intro xs
  induction xs with
  | nil => intro cap; exact ⟨rfl, rfl⟩
  | cons hd tl ih =>
    intro cap
    simp only [List.foldl_cons]
    exact ih _

/-- C10 (amended): `capture_from_database_id` always returns a Capture whose
store identifier and project identifier are the `-1` "not persisted"
sentinels, regardless of the id it was read from and of the project recorded
in the store, and every contained `WaveformChannel` likewise has store
identifier `-1`.  (The claim's final consequence — that writing the
reconstructed Capture creates new rows — does not hold as stated: the write
path raises `TypeError` before inserting anything, see the
counterexample.) -/
theorem c10_reconstructed_ids_unset (db : DB) (capture_id : ℤ) (cap : Capture)
    (h : capture_from_database_id db capture_id = some cap) :
    cap.database_id = -1 ∧ cap.project_id = -1
    ∧ ∀ e ∈ cap.waveforms, e.2.database_id = -1 := by
  unfold capture_from_database_id at h
  cases hg : db.get_capture_from_id capture_id with
  | none => rw [hg] at h; cases h
  | some trip =>
    obtain ⟨p, desc, dt⟩ := trip
    rw [hg] at h
    simp only [Option.some.injEq] at h
    subst h
    refine ⟨(foldl_add_waveform_fields _ _ _ _).1,
            (foldl_add_waveform_fields _ _ _ _).2, ?_⟩
    intro e he
    rcases mem_foldl_add_waveform
        (fun (wrow : ℤ × String × ℤ × String × String × List ℕ) => wrow.2.1)
        (fun (wrow : ℤ × String × ℤ × String × String × List ℕ) =>
          WaveformChannel.make wrow.2.1 wrow.2.2.2.2.2 wrow.2.2.1
            wrow.2.2.2.1 wrow.2.2.2.2.1) _ _ _ he with h1 | h1
    · simp [Capture.make] at h1
    · obtain ⟨x, _, he2⟩ := h1
      rw [he2]
      rfl

/-- A store holding one capture row (id `1`, recorded project `7`) and one
waveform row (id `42`) referencing it. -/
def db10 : DB :=
  ⟨[⟨1, "capdesc", 2, 99, 7⟩], [⟨42, 1, "CH1", 3, "0.5", "d", [1, 2]⟩], 2, 43⟩

/-- The capture `capture_from_database_id db10 1` reconstructs. -/
def cap10 : Capture :=
  ⟨2, [("CH1", WaveformChannel.make "CH1" [1, 2] 3 "0.5" "d")], -1, 99,
    "capdesc", -1⟩

/-- C10 counterexample: reconstructing capture id `1` from `db10` does yield
the `-1` sentinels everywhere (ignoring the stored id `1`, waveform id `42`
and project `7`), but writing the reconstructed Capture back raises
`TypeError` (the `project_id` keyword does not match the `part_of_project`
parameter) instead of creating new rows, so the claim's final consequence
fails. -/
theorem c10_write_after_reconstruct_counterexample :
    (capture_from_database_id db10 1).map
        (fun cap => (cap.database_id, cap.project_id,
          cap.waveforms.map (fun e => e.2.database_id)))
      = some (-1, -1, [-1])
    ∧ (capture_from_database_id db10 1).map (fun cap => cap.write_to_db db10)
      = some (Except.error PyErr.typeErr) := by
  decide

/-- Witness for the amended C10 at `db10`. -/
theorem c10_reconstructed_ids_unset_witness :
    capture_from_database_id db10 1 = some cap10
    ∧ (cap10.database_id = -1 ∧ cap10.project_id = -1
      ∧ ∀ e ∈ cap10.waveforms, e.2.database_id = -1) :=
  ⟨by decide, c10_reconstructed_ids_unset db10 1 cap10 (by decide)⟩

/-- The two channels of the round-trip scenario: `{"CH1": wf_a, "CH2":
wf_b}`. -/
def wf_a : WaveformChannel := WaveformChannel.make "CH1" [0, 128, 255] (-128) "0.01" ""

/-- Second channel of the round-trip scenario. -/
def wf_b : WaveformChannel := WaveformChannel.make "CH2" [7, 7] 0 "2.5" ""

/-- A capture with period `2` holding `wf_a` and `wf_b`. -/
def capRT : Capture :=
  ((Capture.make 2 "" 5).add_waveform "CH1" wf_a).add_waveform "CH2" wf_b

/-- C1: the round trip is unreachable as written — `Capture.write_to_db`
raises `TypeError` (keyword `project_id` vs parameter `part_of_project`)
before persisting anything, for every Capture, so `write()` followed by
`reconstruct(id)` never yields a Capture at all.  With the sole repair of
that keyword binding (`Capture.write_to_db_fixed`, the binding
`examples/db_example.py` relies on), the round trip does hold on this
concrete two-channel capture: the reconstructed Capture has equal period,
equal channel name set (in order), and per channel equal raw sample bytes,
equal `vertical_offset`, and the verbatim (hence numerically equal)
`vertical_scale` text. -/
theorem c1_persistence_round_trip_blocked :
    capRT.write_to_db DB.empty = Except.error PyErr.typeErr
    ∧ ((capture_from_database_id (capRT.write_to_db_fixed DB.empty).2.2
          (capRT.write_to_db_fixed DB.empty).1).map
        (fun cap => cap.period))
      = some capRT.period
    ∧ ((capture_from_database_id (capRT.write_to_db_fixed DB.empty).2.2
          (capRT.write_to_db_fixed DB.empty).1).map
        (fun cap =>
          cap.waveforms.map (fun e => (e.1, e.2.wf_data, e.2.vertical_offset,
            e.2.vert_scale_text))))
      = some [("CH1", [0, 128, 255], -128, "0.01"),
              ("CH2", [7, 7], 0, "2.5")] := by
  decide

/-- A channel carrying a non-empty description. -/
def wf_c : WaveformChannel := WaveformChannel.make "CH1" [9] 0 "1" "important note"

/-- A capture holding `wf_c`. -/
def cap9 : Capture := (Capture.make 3 "mycap" 8).add_waveform "CH1" wf_c

/-- C9: as written, `Capture.write_to_db` raises `TypeError` before the
per-waveform loop runs, so nothing at all is persisted (the claim's
"persists each contained WaveformChannel" cannot happen).  The loop itself,
reached once the keyword slip is repaired
(`Capture.write_to_db_fixed`), does write every channel with
`description=""` — the stored row and the reconstructed channel both carry
the empty description although the in-memory channel's description is
`"important note"`. -/
theorem c9_description_dropped_blocked :
    cap9.write_to_db DB.empty = Except.error PyErr.typeErr
    ∧ wf_c.description = "important note"
    ∧ ((cap9.write_to_db_fixed DB.empty).2.2.waveforms.map
        (fun r => r.description)) = [""]
    ∧ ((capture_from_database_id (cap9.write_to_db_fixed DB.empty).2.2
          (cap9.write_to_db_fixed DB.empty).1).map
        (fun cap => cap.waveforms.map (fun e => e.2.description)))
      = some [""] := by
  decide

/-- C5 (spec-modelled acquisition): the `vertical_scale` decimal text is
preserved verbatim along the whole path and becomes a number only at
amplitude computation:
(1) every channel of an acquired Capture carries, as its `_vertical_scale`,
exactly the `y_increment` text of some enabled channel's preamble;
(2) `WaveformChannel.write_to_db` appends a row whose `TEXT` column holds
exactly the channel's `_vertical_scale` string;
(3) every channel of a reconstructed Capture carries exactly the
`vertical_scale` text of one of the store's waveform rows for that capture;
(4) the only numeric use is `to_float_amplitude_array`, which multiplies by
`float(Decimal(text))` — `decimalToRat` of the preserved text.
Throughout, the value is typed as a string (never stored or compared as a
float). -/
theorem c5_scale_text_preserved :
    (∀ (s : ScopeState) (e : String × WaveformChannel),
        e ∈ (get_capture s).waveforms →
        ∃ c, (c ∈ s.channels ∧ s.enabled c = true)
          ∧ e.2.vert_scale_text = (s.preamble c).y_increment)
    ∧ (∀ (w : WaveformChannel) (key : ℤ) (desc : String) (db : DB),
        ((w.write_to_db key desc db).2.2.waveforms.map
            (fun r => r.vertical_scale))
          = db.waveforms.map (fun r => r.vertical_scale)
              ++ [w.vert_scale_text])
    ∧ (∀ (db : DB) (capture_id : ℤ) (cap : Capture),
        capture_from_database_id db capture_id = some cap →
        ∀ e ∈ cap.waveforms, ∃ row ∈ db.waveforms,
          row.fk_capture = capture_id
          ∧ e.2.vert_scale_text = row.vertical_scale)
    ∧ (∀ (w : WaveformChannel),
        w.to_float_amplitude_array
          = w.wf_data.map
              (fun (s : ℕ) => (((s : ℤ) + w.vertical_offset : ℤ) : ℚ)
                * decimalToRat w.vert_scale_text)) := by
  refine ⟨?_, ?_, ?_, ?_⟩
  · intro s e he
    simp only [get_capture] at he
    rcases mem_foldl_add_waveform (fun (c : ℕ) => toString c)
        (fun (c : ℕ) => WaveformChannel.make (toString c)
          (fetchBuffer (fun a b => s.reader c a b) (s.preamble c).points)
          (-(s.preamble c).y_origin - (s.preamble c).y_reference)
          (s.preamble c).y_increment "") _ _ _ he with h1 | h1
    · simp [Capture.make] at h1
    · obtain ⟨c, hc, he2⟩ := h1
      rw [List.mem_filter] at hc
      refine ⟨c, ⟨hc.1, hc.2⟩, ?_⟩
      rw [he2]
      rfl
  · intro w key desc db
    simp [WaveformChannel.write_to_db, DB.write_waveform_to_db]
  · intro db capture_id cap h e he
    unfold capture_from_database_id at h
    cases hg : db.get_capture_from_id capture_id with
    | none => rw [hg] at h; cases h
    | some trip =>
      obtain ⟨p, desc, dt⟩ := trip
      rw [hg] at h
      simp only [Option.some.injEq] at h
      subst h
      rcases mem_foldl_add_waveform
          (fun (wrow : ℤ × String × ℤ × String × String × List ℕ) => wrow.2.1)
          (fun (wrow : ℤ × String × ℤ × String × String × List ℕ) =>
            WaveformChannel.make wrow.2.1 wrow.2.2.2.2.2 wrow.2.2.1
              wrow.2.2.2.1 wrow.2.2.2.2.1) _ _ _ he with h1 | h1
      · simp [Capture.make] at h1
      · obtain ⟨x, hx, he2⟩ := h1
        simp only [DB.get_waveforms_from_capture_id] at hx
        by_cases hs : (db.captures.find? (fun r => r.id == capture_id)).isSome
        · rw [if_pos hs] at hx
          rw [List.mem_map] at hx
          obtain ⟨row, hrow, hxe⟩ := hx
          rw [List.mem_filter] at hrow
          refine ⟨row, hrow.1, by simpa using hrow.2, ?_⟩
          rw [he2, ← hxe]
          rfl
        · rw [if_neg hs] at hx
          cases hx
  · intro w
    simp [WaveformChannel.to_float_amplitude_array, WaveformChannel.vertical_scale]

/-- A one-channel scope whose preamble reports 2 points and the scale text
`"0.01"`; the reader returns 14 raw bytes (11 header + 2 payload + 1
terminator). -/
def scope5 : ScopeState where
  channels := [1]
  enabled := fun _ => true
  preamble := fun _ => ⟨2, 1, 0, 0, "0.01"⟩
  initial_preamble := ⟨2, 1, 0, 0, "0.01"⟩
  reader := fun _ _ _ => List.range 14
  now := 0

/-- Witness for C5, part (1), at the concrete `scope5`. -/
theorem c5_scale_text_preserved_witness :
    (("1", WaveformChannel.make "1" [11, 12] 0 "0.01" "")
        ∈ (get_capture scope5).waveforms)
    ∧ ∃ c, (c ∈ scope5.channels ∧ scope5.enabled c = true)
        ∧ ("1", WaveformChannel.make "1" [11, 12] 0 "0.01" "").2.vert_scale_text
            = (scope5.preamble c).y_increment :=
  ⟨by decide,
   c5_scale_text_preserved.1 scope5
     ("1", WaveformChannel.make "1" [11, 12] 0 "0.01" "") (by decide)⟩

/-- Multiplying a window element-wise against an all-zero signal yields all
zeros. -/
theorem zipWith_mul_right_zero :
    ∀ (l1 l2 : List ℝ), (∀ b ∈ l2, b = 0) →
      ∀ y ∈ List.zipWith (fun a b => a * b) l1 l2, y = 0 := by
  intro l1
  induction l1 with
  | nil => intro l2 _ y hy; simp at hy
  | cons a l1 ih =>
    intro l2 h2 y hy
    cases l2 with
    | nil => simp at hy
    | cons b l2 =>
      simp only [List.zipWith_cons_cons, List.mem_cons] at hy
      rcases hy with rfl | hy
      · rw [h2 b (List.mem_cons_self _ _), mul_zero]
      · exact ih l2 (fun x hx => h2 x (List.mem_cons_of_mem _ hx)) y hy

/-- Every `rfft` bin of an all-zero signal is zero. -/
theorem rfftBin_zero (x : List ℝ) (hx : ∀ y ∈ x, y = 0) (k : ℕ) :
    rfftBin x k = 0 := by
  unfold rfftBin
  apply Finset.sum_eq_zero
  intro n hn
  rw [Finset.mem_range] at hn
  have hz : x.getD n 0 = 0 := by
    rw [List.getD_eq_getElem?_getD, List.getElem?_eq_getElem hn]
    exact hx _ (List.getElem_mem hn)
  rw [hz]
  simp

/-- C7: `to_frequency_domain` is a pure function of the channel data, the
window and the (unused) period; whenever the window has the proper length
`N = raw_samples.length`, the result has `N/2 + 1` bins (the one-sided
transform of the windowed, mean-subtracted amplitude sequence), and for a
constant-valued sample sequence every returned bin magnitude is exactly
zero (the exact-arithmetic form of "near-zero"). -/
theorem c7_frequency_domain (w : WaveformChannel) (period : ℚ)
    (windowing_function : ℕ → List ℝ)
    (hwin : (windowing_function w.wf_data.length).length = w.wf_data.length) :
    (w.to_frequency_domain period windowing_function).length
        = w.wf_data.length / 2 + 1
    ∧ ((∃ b0, ∀ b ∈ w.wf_data, b = b0) → w.wf_data ≠ [] →
        ∀ y ∈ w.to_frequency_domain period windowing_function, y = 0) := by
  have hlenA : w.to_float_amplitude_array.length = w.wf_data.length := by
    simp [WaveformChannel.to_float_amplitude_array]
  constructor
  · simp only [WaveformChannel.to_frequency_domain, List.length_map,
      List.length_range, List.length_zipWith, hlenA, hwin, Nat.min_self]
  · rintro ⟨b0, hb⟩ hne y hy
    simp only [WaveformChannel.to_frequency_domain, List.mem_map,
      List.mem_range] at hy
    obtain ⟨k, _, hk⟩ := hy
    set A : ℚ := (((b0 : ℤ) + w.vertical_offset : ℤ) : ℚ) * w.vertical_scale with hA
    have hampl : ∀ q ∈ w.to_float_amplitude_array, q = A := by
      intro q hq
      rw [WaveformChannel.to_float_amplitude_array, List.mem_map] at hq
      obtain ⟨s, hs, rfl⟩ := hq
      rw [hb s hs]
    have hfl : ∀ r ∈ w.to_float_amplitude_array.map (fun (q : ℚ) => (q : ℝ)),
        r = (A : ℝ) := by
      intro r hr
      rw [List.mem_map] at hr
      obtain ⟨q, hq, rfl⟩ := hr
      rw [hampl q hq]
    have hlpos : 0 < w.to_float_amplitude_array.length := by
      rw [hlenA]
      exact List.length_pos.mpr hne
    have hsum : (w.to_float_amplitude_array.map (fun (q : ℚ) => (q : ℝ))).sum
        = ((w.to_float_amplitude_array.map (fun (q : ℚ) => (q : ℝ))).length : ℝ)
            * (A : ℝ) := by
      rw [List.sum_eq_card_nsmul _ _ hfl, nsmul_eq_mul]
    have hdc : (w.to_float_amplitude_array.map (fun (q : ℚ) => (q : ℝ))).sum
        / ((w.to_float_amplitude_array.map (fun (q : ℚ) => (q : ℝ))).length : ℝ)
        = (A : ℝ) := by
      have hlen0 : (((w.to_float_amplitude_array.map
          (fun (q : ℚ) => (q : ℝ))).length : ℕ) : ℝ) ≠ 0 := by
        simp only [List.length_map]
        exact_mod_cast Nat.pos_iff_ne_zero.mp hlpos
      rw [hsum, mul_div_cancel_left₀ _ hlen0]
    have hzero : ∀ b ∈ (w.to_float_amplitude_array.map (fun (q : ℚ) => (q : ℝ))).map
        (fun v => v - (w.to_float_amplitude_array.map (fun (q : ℚ) => (q : ℝ))).sum
          / ((w.to_float_amplitude_array.map (fun (q : ℚ) => (q : ℝ))).length : ℝ)),
        b = 0 := by
      intro b hbmem
      rw [List.mem_map] at hbmem
      obtain ⟨r, hr, rfl⟩ := hbmem
      rw [hfl r hr, hdc, sub_self]
    have hwz := zipWith_mul_right_zero
      (windowing_function w.wf_data.length) _ hzero
    rw [← hk, rfftBin_zero _ hwz k]
    simp [Real.sqrt_zero]

/-- The constant-sample channel used as C7's witness input. -/
def w7 : WaveformChannel := WaveformChannel.make "1" [5, 5, 5] 0 "0.01" ""

/-- A rectangular window of the proper length. -/
noncomputable def win7 : ℕ → List ℝ := fun n => List.replicate n 1

/-- Witness for C7 at the constant channel `w7`. -/
theorem c7_frequency_domain_witness :
    (win7 w7.wf_data.length).length = w7.wf_data.length
    ∧ (∃ b0, ∀ b ∈ w7.wf_data, b = b0) ∧ w7.wf_data ≠ []
    ∧ ((w7.to_frequency_domain 1 win7).length = w7.wf_data.length / 2 + 1
      ∧ ∀ y ∈ w7.to_frequency_domain 1 win7, y = 0) :=
  ⟨by simp [win7, w7, WaveformChannel.make],
   ⟨5, by decide⟩, by decide,
   (c7_frequency_domain w7 1 win7 (by simp [win7, w7, WaveformChannel.make])).1,
   (c7_frequency_domain w7 1 win7 (by simp [win7, w7, WaveformChannel.make])).2
     ⟨5, by decide⟩ (by decide)⟩
